import Mathlib

/-!
Verification development for busride-rs (src/lib.rs): a bridge serving an
Axum HTTP application over FastCGI on an inherited Unix domain socket.

The development shallowly embeds the pure decision structure of the code:

* the Request Translator (function http_request_from_fcgi_request),
* the Response Emitter (function write_http_response plus the final flush
  performed by the request handler),
* the request handler (function handle_fcgi_request_with_axum_app),
* the body channel and its ingestion loop (the body_tx future inside the
  handler, together with the tokio unbounded mpsc channel it feeds),
* the inherited-socket startup guard and the biased-select shutdown
  coordinator of serve_fcgid_with_graceful_shutdown.

External collaborators (the http crate, the fastcgi-server runner, tokio
channels) are modelled at their documented interfaces: validity checks of
the http crate are byte-level predicates, the unbounded channel is a FIFO
queue, and the runner shutdown is a drain phase.
-/

/-- Byte strings are lists of naturals (each below 256; no arithmetic is
performed on them, so overflow never arises). -/
abbrev Bytes := List Nat

/-- Bytes of an ASCII string literal. -/
def strBytes (s : String) : Bytes := s.toList.map Char.toNat

/-- CGI environment of one FastCGI request: association list from variable
name to value, in the order produced by env_iter of fastcgi-server. -/
abbrev Env := List (Bytes × Bytes)

/-- Models fastcgi-server get_var: the first binding of the name wins. -/
def getVar (env : Env) (k : Bytes) : Option Bytes :=
  (env.find? (fun kv => kv.1 == k)).map Prod.snd

/-- Dedicated CGI variable name used by the translator (fastcgi-server cgi constant). -/
def REQUEST_METHOD : Bytes := strBytes "REQUEST_METHOD"

/-- Dedicated CGI variable name used by the translator (fastcgi-server cgi constant). -/
def REQUEST_URI : Bytes := strBytes "REQUEST_URI"

/-- Dedicated CGI variable name used by the translator (fastcgi-server cgi constant). -/
def CONTENT_TYPE : Bytes := strBytes "CONTENT_TYPE"

/-- Dedicated CGI variable name used by the translator (fastcgi-server cgi constant). -/
def CONTENT_LENGTH : Bytes := strBytes "CONTENT_LENGTH"

/-- Byte-level prefix test, used for the starts_with("HTTP_") check. -/
def bytesStartWith : Bytes → Bytes → Bool
  | _, [] => true
  | [], _ :: _ => false
  | a :: as, b :: bs => a == b && bytesStartWith as bs

/-- HTTP protocol versions of the http crate that matter here. -/
inductive HttpVersion
  | h10
  | h11
deriving Repr, DecidableEq

/-- Token bytes accepted by the external http crate in methods and header
names: digits, letters, and the fifteen extra token characters. -/
def isTokenByte (b : Nat) : Bool :=
  (Nat.ble 48 b && Nat.ble b 57) || (Nat.ble 65 b && Nat.ble b 90) ||
  (Nat.ble 97 b && Nat.ble b 122) ||
  b == 33 || b == 35 || b == 36 || b == 37 || b == 38 || b == 39 || b == 42 ||
  b == 43 || b == 45 || b == 46 || b == 94 || b == 95 || b == 96 || b == 124 ||
  b == 126

/-- A method is valid for the http crate when nonempty and all token bytes. -/
def validMethod (m : Bytes) : Bool := !m.isEmpty && m.all isTokenByte

/-- URI bytes accepted by the http crate at its interface: visible ASCII. -/
def validUriByte (b : Nat) : Bool := Nat.ble 33 b && Nat.ble b 126

/-- A URI is valid at the interface model when nonempty and all visible ASCII. -/
def validUri (u : Bytes) : Bool := !u.isEmpty && u.all validUriByte

/-- Header names accepted by the http crate: nonempty strings of token bytes. -/
def validHeaderName (n : Bytes) : Bool := !n.isEmpty && n.all isTokenByte

/-- Header value bytes accepted by the http crate: horizontal tab or any
byte from 32 to 255 other than DEL. -/
def validHeaderValueByte (b : Nat) : Bool :=
  b == 9 || (Nat.ble 32 b && Nat.ble b 255 && !(b == 127))

/-- A header value is valid when every byte is. -/
def validHeaderValue (v : Bytes) : Bool := v.all validHeaderValueByte

/-- Errors of the external http crate surfaced by Builder::body. -/
inductive HttpError
  | invalidMethod
  | invalidUri
  | invalidHeaderName
  | invalidHeaderValue
deriving Repr, DecidableEq

/-- Header and metadata skeleton of the http::Request the translator builds. -/
structure HttpRequestParts where
  version : HttpVersion
  method : Bytes
  uri : Bytes
  headers : List (Bytes × Bytes)
deriving Repr, DecidableEq

deriving instance DecidableEq for Except

/-- State of http::request::Builder: the accumulated parts, or the first
error encountered (later operations on an errored builder are no-ops, and
Builder::body surfaces the stored error). -/
abbrev HttpBuilder := Except HttpError HttpRequestParts

/-- Models http::Request::builder(): defaults GET, "/", HTTP/1.1, no headers. -/
def HttpBuilder.start : HttpBuilder :=
  .ok ⟨HttpVersion.h11, strBytes "GET", strBytes "/", []⟩

/-- Models Builder::version (cannot fail). -/
def HttpBuilder.version (b : HttpBuilder) (v : HttpVersion) : HttpBuilder :=
  b.map (fun p => { p with version := v })

/-- Models Builder::method: stores the method when its bytes are valid,
otherwise records the first error. -/
def HttpBuilder.method (b : HttpBuilder) (m : Bytes) : HttpBuilder :=
  match b with
  | .error e => .error e
  | .ok p => if validMethod m then .ok { p with method := m } else .error .invalidMethod

/-- Models Builder::uri: stores the target URI when its bytes are valid. -/
def HttpBuilder.uri (b : HttpBuilder) (u : Bytes) : HttpBuilder :=
  match b with
  | .error e => .error e
  | .ok p => if validUri u then .ok { p with uri := u } else .error .invalidUri

/-- Models Builder::header: appends one name/value pair to the header
multimap when both parse, otherwise records the first error. -/
def HttpBuilder.header (b : HttpBuilder) (n v : Bytes) : HttpBuilder :=
  match b with
  | .error e => .error e
  | .ok p =>
    if !validHeaderName n then .error .invalidHeaderName
    else if !validHeaderValue v then .error .invalidHeaderValue
    else .ok { p with headers := p.headers ++ [(n, v)] }

/-- One step of the env_iter fold in http_request_from_fcgi_request: a
variable whose name starts with HTTP_ becomes a header named by the
remainder after the five prefix bytes; any other variable is skipped. -/
def addHeaderStep (memo : HttpBuilder) (kv : Bytes × Bytes) : HttpBuilder :=
  if bytesStartWith kv.1 (strBytes "HTTP_") then HttpBuilder.header memo (kv.1.drop 5) kv.2
  else memo

/-- One optional dedicated content header: models the two statements of the
form if let Some(v) = req.get_var(..) then h_req = h_req.header(name, v). -/
def contentHeaderStage (b : HttpBuilder) (n : Bytes) (o : Option Bytes) : HttpBuilder :=
  match o with
  | some v => HttpBuilder.header b n v
  | none => b

/-- Embedding of http_request_from_fcgi_request (src/lib.rs lines 278-322),
restricted to the header+metadata skeleton: version HTTP/1.1, method from
REQUEST_METHOD defaulting to GET, URI from REQUEST_URI defaulting to "/",
content-type and content-length headers from their dedicated unprefixed
variables, then every HTTP_-prefixed variable folded in as a header. The
body channel half of the function is modelled separately by the ChanState
machine below. -/
def http_request_from_fcgi_request (env : Env) : Except HttpError HttpRequestParts :=
  let h_req := HttpBuilder.uri
      (HttpBuilder.method (HttpBuilder.version HttpBuilder.start HttpVersion.h11)
        ((getVar env REQUEST_METHOD).getD (strBytes "GET")))
      ((getVar env REQUEST_URI).getD (strBytes "/"))
  let h_req := contentHeaderStage h_req (strBytes "Content-Type") (getVar env CONTENT_TYPE)
  let h_req := contentHeaderStage h_req (strBytes "Content-Length") (getVar env CONTENT_LENGTH)
  env.foldl addHeaderStep h_req

/-- On the concrete scenario environment of the spec, the translator
produces GET /hi with the single stripped header. -/
theorem translator_scenario_eval :
    http_request_from_fcgi_request
      [(REQUEST_METHOD, strBytes "GET"), (REQUEST_URI, strBytes "/hi"),
       (strBytes "HTTP_X_TOKEN", strBytes "abc")] =
    .ok ⟨HttpVersion.h11, strBytes "GET", strBytes "/hi",
         [(strBytes "X_TOKEN", strBytes "abc")]⟩ := by decide

/-- A method value that is not a token fails translation. -/
theorem translator_invalid_method_eval :
    http_request_from_fcgi_request [(REQUEST_METHOD, [32])] = .error .invalidMethod := by
  decide

/-- A header-fold step applied to an errored builder is a no-op. -/
theorem addHeaderStep_error (e : HttpError) (kv : Bytes × Bytes) :
    addHeaderStep (.error e) kv = .error e := by
  unfold addHeaderStep HttpBuilder.header
  split <;> rfl

/-- The env_iter header fold leaves an errored builder untouched. -/
theorem foldl_addHeaderStep_error :
    ∀ (l : Env) (e : HttpError), l.foldl addHeaderStep (.error e) = .error e
  | [], _ => rfl
  | kv :: rest, e => by
    rw [List.foldl, addHeaderStep_error]
    exact foldl_addHeaderStep_error rest e

/-- When the env_iter header fold succeeds it changes nothing but the header
list, to which it appends exactly the HTTP_-prefixed variables, prefix
stripped, in iteration order. -/
theorem foldl_addHeaderStep_ok (l : Env) (p q : HttpRequestParts)
    (h : l.foldl addHeaderStep (.ok p) = .ok q) :
    q.version = p.version ∧ q.method = p.method ∧ q.uri = p.uri ∧
    q.headers = p.headers ++
      (l.filter (fun kv => bytesStartWith kv.1 (strBytes "HTTP_"))).map
        (fun kv => (kv.1.drop 5, kv.2)) := by
  induction l generalizing p with
  | nil =>
    cases h
    simp
  | cons kv rest ih =>
    rw [List.foldl] at h
    by_cases hs : bytesStartWith kv.1 (strBytes "HTTP_") = true
    · rw [addHeaderStep, if_pos hs, HttpBuilder.header] at h
      by_cases hn : validHeaderName (kv.1.drop 5) = true
      · by_cases hv : validHeaderValue kv.2 = true
        · rw [hn, hv] at h
          simp only [Bool.not_true, Bool.false_eq_true, if_false] at h
          obtain ⟨h1, h2, h3, h4⟩ := ih _ h
          refine ⟨h1, h2, h3, ?_⟩
          rw [h4]
          simp [List.filter, hs, List.append_assoc]
        · have hv2 : validHeaderValue kv.2 = false := by
            revert hv
            cases validHeaderValue kv.2 <;> simp
          simp only [hn, hv2, Bool.not_true, Bool.not_false, Bool.false_eq_true,
            if_true, if_false] at h
          rw [foldl_addHeaderStep_error] at h
          cases h
      · have hn2 : validHeaderName (kv.1.drop 5) = false := by
          revert hn
          cases validHeaderName (kv.1.drop 5) <;> simp
        simp only [hn2, Bool.not_false, if_true] at h
        rw [foldl_addHeaderStep_error] at h
        cases h
    · rw [addHeaderStep, if_neg hs] at h
      obtain ⟨h1, h2, h3, h4⟩ := ih _ h
      refine ⟨h1, h2, h3, ?_⟩
      rw [h4]
      simp [List.filter, hs]

/-- The env_iter header fold succeeds only from a non-errored builder. -/
theorem foldl_addHeaderStep_ok_inv (l : Env) (b : HttpBuilder) (q : HttpRequestParts)
    (h : l.foldl addHeaderStep b = .ok q) : ∃ p, b = .ok p := by
  cases b with
  | ok p => exact ⟨p, rfl⟩
  | error e =>
    rw [foldl_addHeaderStep_error] at h
    cases h

/-- Inversion for the model of Builder::method. -/
theorem method_ok_inv (b : HttpBuilder) (m : Bytes) (q : HttpRequestParts)
    (h : HttpBuilder.method b m = .ok q) :
    ∃ p, b = .ok p ∧ validMethod m = true ∧ q = { p with method := m } := by
  cases b with
  | error e => simp [HttpBuilder.method] at h
  | ok p =>
    simp only [HttpBuilder.method] at h
    by_cases hv : validMethod m = true
    · rw [if_pos hv] at h
      cases h
      exact ⟨p, rfl, hv, rfl⟩
    · rw [if_neg hv] at h
      cases h

/-- Inversion for the model of Builder::uri. -/
theorem uri_ok_inv (b : HttpBuilder) (u : Bytes) (q : HttpRequestParts)
    (h : HttpBuilder.uri b u = .ok q) :
    ∃ p, b = .ok p ∧ validUri u = true ∧ q = { p with uri := u } := by
  cases b with
  | error e => simp [HttpBuilder.uri] at h
  | ok p =>
    simp only [HttpBuilder.uri] at h
    by_cases hv : validUri u = true
    · rw [if_pos hv] at h
      cases h
      exact ⟨p, rfl, hv, rfl⟩
    · rw [if_neg hv] at h
      cases h

/-- Inversion for the model of Builder::header. -/
theorem header_ok_inv (b : HttpBuilder) (n v : Bytes) (q : HttpRequestParts)
    (h : HttpBuilder.header b n v = .ok q) :
    ∃ p, b = .ok p ∧ validHeaderName n = true ∧ validHeaderValue v = true ∧
      q = { p with headers := p.headers ++ [(n, v)] } := by
  cases b with
  | error e => simp [HttpBuilder.header] at h
  | ok p =>
    simp only [HttpBuilder.header] at h
    by_cases hn : validHeaderName n = true
    · by_cases hv : validHeaderValue v = true
      · rw [hn, hv] at h
        simp only [Bool.not_true, Bool.false_eq_true, if_false] at h
        cases h
        exact ⟨p, rfl, hn, hv, rfl⟩
      · have hv2 : validHeaderValue v = false := by
          revert hv
          cases validHeaderValue v <;> simp
        rw [hn, hv2] at h
        simp only [Bool.not_true, Bool.not_false, Bool.false_eq_true,
          if_false, if_true] at h
        cases h
    · have hn2 : validHeaderName n = false := by
        revert hn
        cases validHeaderName n <;> simp
      rw [hn2] at h
      simp only [Bool.not_false, if_true] at h
      cases h

/-- Inversion for one optional dedicated content header: on success it adds
exactly the header named n for the variable value, when present. -/
theorem contentHeaderStage_ok_inv (b : HttpBuilder) (n : Bytes) (o : Option Bytes)
    (q : HttpRequestParts) (h : contentHeaderStage b n o = .ok q) :
    ∃ p, b = .ok p ∧ q.version = p.version ∧ q.method = p.method ∧ q.uri = p.uri ∧
      q.headers = p.headers ++ o.toList.map (fun v => (n, v)) := by
  cases o with
  | none =>
    cases b with
    | error e => simp [contentHeaderStage] at h
    | ok p =>
      simp only [contentHeaderStage] at h
      cases h
      exact ⟨q, rfl, rfl, rfl, rfl, by simp⟩
  | some v =>
    simp only [contentHeaderStage] at h
    obtain ⟨p, hb, _, _, hq⟩ := header_ok_inv _ _ _ _ h
    subst hq
    exact ⟨p, hb, rfl, rfl, rfl, by simp⟩

/-- C1: for every valid Request environment map (one on which the translator
succeeds), the resulting HttpRequest takes its method from REQUEST_METHOD
and its URI from REQUEST_URI (with the builder defaults when absent), its
content-type and content-length headers from their dedicated unprefixed
variables, and its remaining headers are exactly the HTTP_-prefixed
variables with the prefix stripped and the remainder used verbatim as the
header name, in iteration order; a variable without the prefix never
becomes a header. -/
theorem C1_request_translator_exact (env : Env) (p : HttpRequestParts)
    (h : http_request_from_fcgi_request env = .ok p) :
    p.method = (getVar env REQUEST_METHOD).getD (strBytes "GET") ∧
    p.uri = (getVar env REQUEST_URI).getD (strBytes "/") ∧
    p.headers =
      (getVar env CONTENT_TYPE).toList.map (fun v => (strBytes "Content-Type", v)) ++
      (getVar env CONTENT_LENGTH).toList.map (fun v => (strBytes "Content-Length", v)) ++
      (env.filter (fun kv => bytesStartWith kv.1 (strBytes "HTTP_"))).map
        (fun kv => (kv.1.drop 5, kv.2)) := by
  simp only [http_request_from_fcgi_request] at h
  obtain ⟨q0, hq0⟩ := foldl_addHeaderStep_ok_inv _ _ _ h
  rw [hq0] at h
  obtain ⟨_, hm, hu, hh⟩ := foldl_addHeaderStep_ok _ _ _ h
  obtain ⟨q1, hq1, _, hm1, hu1, hh1⟩ := contentHeaderStage_ok_inv _ _ _ _ hq0
  obtain ⟨q2, hq2, _, hm2, hu2, hh2⟩ := contentHeaderStage_ok_inv _ _ _ _ hq1
  obtain ⟨q3, hq3, _, hq2eq⟩ := uri_ok_inv _ _ _ hq2
  obtain ⟨q4, hq4, _, hq3eq⟩ := method_ok_inv _ _ _ hq3
  rw [show HttpBuilder.version HttpBuilder.start HttpVersion.h11 =
      Except.ok (⟨HttpVersion.h11, strBytes "GET", strBytes "/", []⟩ : HttpRequestParts)
    from rfl] at hq4
  cases hq4
  subst hq3eq
  subst hq2eq
  refine ⟨?_, ?_, ?_⟩
  · rw [hm, hm1, hm2]
  · rw [hu, hu1, hu2]
  · rw [hh, hh1, hh2]
    simp

/-- C10: each default stands on its own. Whenever the environment lacks
REQUEST_METHOD — whatever the other variables hold — the translator uses
method GET, and whenever it lacks REQUEST_URI it uses URI "/"; neither
absence is malformed: the builder stage consuming the missing variable
succeeds outright with the default (the defaults always pass validation),
so a translator failure can never be caused by the absence itself. -/
theorem C10_method_uri_defaults (env : Env) :
    (getVar env REQUEST_METHOD = none →
      (∀ p, http_request_from_fcgi_request env = .ok p → p.method = strBytes "GET") ∧
      HttpBuilder.method (HttpBuilder.version HttpBuilder.start HttpVersion.h11)
          ((getVar env REQUEST_METHOD).getD (strBytes "GET")) =
        .ok ⟨HttpVersion.h11, strBytes "GET", strBytes "/", []⟩) ∧
    (getVar env REQUEST_URI = none →
      (∀ p, http_request_from_fcgi_request env = .ok p → p.uri = strBytes "/") ∧
      (∀ q : HttpRequestParts,
        HttpBuilder.uri (.ok q) ((getVar env REQUEST_URI).getD (strBytes "/")) =
          .ok { q with uri := strBytes "/" })) := by
  constructor
  · intro hm
    constructor
    · intro p h
      simp only [http_request_from_fcgi_request] at h
      obtain ⟨q0, hq0⟩ := foldl_addHeaderStep_ok_inv _ _ _ h
      rw [hq0] at h
      obtain ⟨_, hpm, _, _⟩ := foldl_addHeaderStep_ok _ _ _ h
      obtain ⟨q1, hq1, _, hm1, _, _⟩ := contentHeaderStage_ok_inv _ _ _ _ hq0
      obtain ⟨q2, hq2, _, hm2, _, _⟩ := contentHeaderStage_ok_inv _ _ _ _ hq1
      obtain ⟨q3, hq3, _, hq2eq⟩ := uri_ok_inv _ _ _ hq2
      obtain ⟨q4, hq4, _, hq3eq⟩ := method_ok_inv _ _ _ hq3
      subst hq3eq
      subst hq2eq
      rw [hpm, hm1, hm2]
      simp [hm]
    · rw [hm]
      rfl
  · intro hu
    constructor
    · intro p h
      simp only [http_request_from_fcgi_request] at h
      obtain ⟨q0, hq0⟩ := foldl_addHeaderStep_ok_inv _ _ _ h
      rw [hq0] at h
      obtain ⟨_, _, hpu, _⟩ := foldl_addHeaderStep_ok _ _ _ h
      obtain ⟨q1, hq1, _, _, hu1, _⟩ := contentHeaderStage_ok_inv _ _ _ _ hq0
      obtain ⟨q2, hq2, _, _, hu2, _⟩ := contentHeaderStage_ok_inv _ _ _ _ hq1
      obtain ⟨q3, hq3, _, hq2eq⟩ := uri_ok_inv _ _ _ hq2
      subst hq2eq
      rw [hpu, hu1, hu2]
      simp [hu]
    · intro q
      rw [hu]
      simp only [Option.getD, HttpBuilder.uri]
      rw [if_pos (show validUri (strBytes "/") = true by decide)]

/-- Concrete scenario environment from the spec: GET /hi with one token header. -/
def envScenario : Env :=
  [(REQUEST_METHOD, strBytes "GET"), (REQUEST_URI, strBytes "/hi"),
   (strBytes "HTTP_X_TOKEN", strBytes "abc")]

/-- Parts the translator produces on the scenario environment. -/
def partsScenario : HttpRequestParts :=
  ⟨HttpVersion.h11, strBytes "GET", strBytes "/hi", [(strBytes "X_TOKEN", strBytes "abc")]⟩

/-- Witness for C1 at the concrete scenario environment of the spec. -/
theorem C1_request_translator_exact_witness :
    partsScenario.method = (getVar envScenario REQUEST_METHOD).getD (strBytes "GET") ∧
    partsScenario.uri = (getVar envScenario REQUEST_URI).getD (strBytes "/") ∧
    partsScenario.headers =
      (getVar envScenario CONTENT_TYPE).toList.map (fun v => (strBytes "Content-Type", v)) ++
      (getVar envScenario CONTENT_LENGTH).toList.map (fun v => (strBytes "Content-Length", v)) ++
      (envScenario.filter (fun kv => bytesStartWith kv.1 (strBytes "HTTP_"))).map
        (fun kv => (kv.1.drop 5, kv.2)) :=
  C1_request_translator_exact envScenario partsScenario (by decide)

/-- Environment lacking only REQUEST_METHOD, used only by the C10 witness. -/
def envOnlyUri : Env := [(REQUEST_URI, strBytes "/hi")]

/-- Parts the translator produces on envOnlyUri. -/
def partsOnlyUri : HttpRequestParts :=
  ⟨HttpVersion.h11, strBytes "GET", strBytes "/hi", []⟩

/-- Environment lacking only REQUEST_URI, used only by the C10 witness. -/
def envOnlyMethod : Env := [(REQUEST_METHOD, strBytes "POST")]

/-- Parts the translator produces on envOnlyMethod. -/
def partsOnlyMethod : HttpRequestParts :=
  ⟨HttpVersion.h11, strBytes "POST", strBytes "/", []⟩

/-- Witness for C10 on two environments each lacking exactly one dedicated
variable: the method defaults to GET while REQUEST_URI is present, and the
URI defaults to "/" while REQUEST_METHOD is present. -/
theorem C10_method_uri_defaults_witness :
    partsOnlyUri.method = strBytes "GET" ∧ partsOnlyMethod.uri = strBytes "/" :=
  ⟨((C10_method_uri_defaults envOnlyUri).1 (by decide)).1 partsOnlyUri (by decide),
   ((C10_method_uri_defaults envOnlyMethod).2 (by decide)).1 partsOnlyMethod (by decide)⟩

/-- FastCGI request roles (fastcgi_server::protocol::Role). -/
inductive Role
  | responder
  | authorizer
  | filter
deriving Repr, DecidableEq

/-- Per-request outcome returned to the protocol runner
(fastcgi_server::ExitStatus): Complete with a CGI exit code. -/
inductive ExitStatus
  | complete (code : Nat)
deriving Repr, DecidableEq

/-- Models ExitStatus::SUCCESS, which is Complete(0). -/
def ExitStatus.SUCCESS : ExitStatus := .complete 0

/-- Transport-level io::Error values the handler can surface: a failure of
the writeable() gate, a failed write on the output stream, or the io error
the emitter wraps around a response-body production error of the app. -/
inductive IoErr
  | writeableFailed
  | writeFailed
  | bodyStream (msg : String)
deriving Repr, DecidableEq

/-- The http::Response produced by the Axum app: status, header multimap,
and a streamed body whose items are chunks or a production error. -/
structure HttpResponse where
  status : Nat
  headers : List (Bytes × Bytes)
  body : List (Except String Bytes)
deriving Repr, DecidableEq

/-- Output-stream writer of one request: the chunks written so far (each
write_all call is one trace entry), whether flush was called, and an
injected failure point counting write_all calls from now (none = the
transport never fails). -/
structure OutWriter where
  written : List Bytes
  flushed : Bool
  failAt : Option Nat
deriving Repr, DecidableEq

/-- Models AsyncWriteExt::write_all on the request output stream: appends
the chunk to the trace, or fails when the injected failure point is hit. -/
def writeAll (w : OutWriter) (b : Bytes) : Except IoErr OutWriter :=
  match w.failAt with
  | some 0 => .error .writeFailed
  | some (n + 1) => .ok ⟨w.written ++ [b], w.flushed, some n⟩
  | none => .ok ⟨w.written ++ [b], w.flushed, none⟩

/-- Models BufWriter::flush at the end of the handler. -/
def flushW (w : OutWriter) : OutWriter := ⟨w.written, true, w.failAt⟩

/-- Models cgi::response::http_headers of fastcgi-server at its interface:
a CGI/1.1 status line followed by the headers and a blank line, as one
byte string (the code writes it with a single write_all call). -/
def serializeCgiHeaders (resp : HttpResponse) : Bytes :=
  strBytes ("Status: " ++ toString resp.status ++ "\r\n") ++
  resp.headers.foldr
    (fun kv acc => kv.1 ++ strBytes ": " ++ kv.2 ++ strBytes "\r\n" ++ acc) [] ++
  strBytes "\r\n"

/-- The body write loop of write_http_response: each chunk produced by the
app is written as it arrives; a production error of the body stream is
logged and wrapped into an io error (io::Error::other), ending the loop. -/
def writeBodyStream (w : OutWriter) : List (Except String Bytes) → Except IoErr OutWriter
  | [] => .ok w
  | Except.ok hunk :: rest =>
    match writeAll w hunk with
    | .error e => .error e
    | .ok w1 => writeBodyStream w1 rest
  | Except.error e :: _ => .error (.bodyStream e)

/-- Embedding of write_http_response (src/lib.rs lines 325-359): write the
serialized CGI/1.1 status line and headers, then stream the body chunk by
chunk; any write failure or body production error aborts with an io error. -/
def write_http_response (w : OutWriter) (resp : HttpResponse) : Except IoErr OutWriter :=
  match writeAll w (serializeCgiHeaders resp) with
  | .error e => .error e
  | .ok w1 => writeBodyStream w1 resp.body

/-- The Axum application at its interface: an async total function from the
request skeleton and its (fully streamed) body bytes to a response. The
call is infallible (the Infallible error branch of the code is
uninhabited), so it is a plain function here. -/
abbrev App := HttpRequestParts → List Bytes → HttpResponse

/-- One FastCGI request as the handler sees it: role tag, environment,
the chunks its input stream will yield, and whether the writeable() gate
succeeds on this connection. -/
structure FcgiReq where
  role : Role
  env : Env
  bodyChunks : List Bytes
  writeableOk : Bool
deriving Repr

/-- Embedding of handle_fcgi_request_with_axum_app (src/lib.rs lines
167-270): a non-Responder role exits early with code 1; a writeable()
failure is an io error; a translator failure exits with code 1; otherwise
the app response is emitted with write_http_response, whose io errors
propagate, and on success the buffered writer is flushed and the handler
reports ExitStatus::SUCCESS. The concurrent body ingestion loop joined with
the app call never changes this outcome (it returns unit); it is modelled
separately by body_tx_fut and the ChanState machine. -/
def handle_fcgi_request_with_axum_app (app : App) (req : FcgiReq) (w : OutWriter) :
    Except IoErr (ExitStatus × OutWriter) :=
  if req.role ≠ Role.responder then .ok (.complete 1, w)
  else if req.writeableOk = false then .error .writeableFailed
  else
    match http_request_from_fcgi_request req.env with
    | .error _ => .ok (.complete 1, w)
    | .ok http_req =>
      let app_response := app http_req req.bodyChunks
      match write_http_response w app_response with
      | .error e => .error e
      | .ok w1 => .ok (ExitStatus.SUCCESS, flushW w1)

/-- C5: a request whose role tag is not Responder yields the successful
per-request outcome ExitStatus::Complete(1) with no transport error and an
untouched output writer, for every application: the app is never invoked
and the connection stays usable for further requests. -/
theorem C5_non_responder_role (app : App) (req : FcgiReq) (w : OutWriter)
    (h : req.role ≠ Role.responder) :
    handle_fcgi_request_with_axum_app app req w = .ok (.complete 1, w) := by
  unfold handle_fcgi_request_with_axum_app
  rw [if_pos h]

/-- App used only by the C5 witness. -/
def appC5 : App := fun _ _ => ⟨200, [], []⟩

/-- Authorizer-role request used only by the C5 witness. -/
def reqC5 : FcgiReq := ⟨Role.authorizer, [], [], true⟩

/-- Writer used only by the C5 witness. -/
def wC5 : OutWriter := ⟨[], false, none⟩

/-- Witness for C5 at a concrete authorizer-role request. -/
theorem C5_non_responder_role_witness :
    handle_fcgi_request_with_axum_app appC5 reqC5 wC5 = .ok (.complete 1, wC5) :=
  C5_non_responder_role appC5 reqC5 wC5 (by decide)

/-- C6: when the environment makes method, URI, or header construction
structurally invalid, the translator fails and the handler reports the
per-request outcome ExitStatus::Complete(1) — a non-zero code distinct from
SUCCESS — instead of a connection-terminating io error, for every app. -/
theorem C6_malformed_request_is_per_request (app : App) (req : FcgiReq) (w : OutWriter)
    (e : HttpError) (hrole : req.role = Role.responder) (hwok : req.writeableOk = true)
    (h : http_request_from_fcgi_request req.env = .error e) :
    handle_fcgi_request_with_axum_app app req w = .ok (.complete 1, w) ∧
    (ExitStatus.complete 1 : ExitStatus) ≠ ExitStatus.SUCCESS := by
  refine ⟨?_, by decide⟩
  unfold handle_fcgi_request_with_axum_app
  rw [if_neg (by simp [hrole]), if_neg (by simp [hwok]), h]

/-- App used only by the C6 witness. -/
def appC6 : App := fun _ _ => ⟨200, [], []⟩

/-- Request with an invalid (space) REQUEST_METHOD, used only by the C6 witness. -/
def reqC6 : FcgiReq := ⟨Role.responder, [(REQUEST_METHOD, [32])], [], true⟩

/-- Writer used only by the C6 witness. -/
def wC6 : OutWriter := ⟨[], false, none⟩

/-- Witness for C6 at a request whose method bytes cannot parse. -/
theorem C6_malformed_request_is_per_request_witness :
    handle_fcgi_request_with_axum_app appC6 reqC6 wC6 = .ok (.complete 1, wC6) ∧
    (ExitStatus.complete 1 : ExitStatus) ≠ ExitStatus.SUCCESS :=
  C6_malformed_request_is_per_request appC6 reqC6 wC6 .invalidMethod rfl rfl (by decide)

/-- The body write loop writes each chunk of an error-free stream in order,
one write_all call per chunk, when the transport does not fail. -/
theorem writeBodyStream_all_ok (chunks : List Bytes) (w : OutWriter)
    (hf : w.failAt = none) :
    writeBodyStream w (chunks.map Except.ok) = .ok ⟨w.written ++ chunks, w.flushed, none⟩ := by
  induction chunks generalizing w with
  | nil =>
    obtain ⟨wr, fl, fa⟩ := w
    simp only at hf
    subst hf
    simp [writeBodyStream]
  | cons c rest ih =>
    simp only [List.map, writeBodyStream, writeAll, hf]
    rw [ih ⟨w.written ++ [c], w.flushed, none⟩ rfl]
    simp

/-- On an error-free body stream and a non-failing transport, the emitter
succeeds and its trace is the serialized status line and headers first,
then the body chunks in stream order. -/
theorem write_http_response_ok (w : OutWriter) (resp : HttpResponse) (chunks : List Bytes)
    (hf : w.failAt = none) (hb : resp.body = chunks.map Except.ok) :
    write_http_response w resp =
      .ok ⟨w.written ++ serializeCgiHeaders resp :: chunks, w.flushed, none⟩ := by
  unfold write_http_response
  simp only [writeAll, hf]
  rw [hb, writeBodyStream_all_ok chunks ⟨w.written ++ [serializeCgiHeaders resp], w.flushed, none⟩ rfl]
  simp

/-- C7: for every HttpResponse with an error-free chunk stream, the
Response Emitter first writes the full serialized CGI/1.1 status line and
headers as one write, then each body chunk as a separate write in stream
order (never accumulating the body), and the handler flushes the buffered
writer after emission: the final writer trace is headers followed by the
chunks, with flushed set. -/
theorem C7_emitter_order_and_flush (req : FcgiReq) (w : OutWriter) (resp : HttpResponse)
    (chunks : List Bytes) (parts : HttpRequestParts)
    (hrole : req.role = Role.responder) (hwok : req.writeableOk = true)
    (hreq : http_request_from_fcgi_request req.env = .ok parts)
    (hf : w.failAt = none) (hb : resp.body = chunks.map Except.ok) :
    write_http_response w resp =
      .ok ⟨w.written ++ serializeCgiHeaders resp :: chunks, w.flushed, none⟩ ∧
    handle_fcgi_request_with_axum_app (fun _ _ => resp) req w =
      .ok (ExitStatus.SUCCESS, ⟨w.written ++ serializeCgiHeaders resp :: chunks, true, none⟩) := by
  have hwr := write_http_response_ok w resp chunks hf hb
  refine ⟨hwr, ?_⟩
  unfold handle_fcgi_request_with_axum_app
  rw [if_neg (by simp [hrole]), if_neg (by simp [hwok]), hreq]
  simp only
  rw [hwr]
  simp [flushW]

/-- Responder request with empty environment, used only by the C7 witness. -/
def reqC7 : FcgiReq := ⟨Role.responder, [], [], true⟩

/-- Response with status 200 and body "ok", used only by the C7 witness. -/
def respC7 : HttpResponse := ⟨200, [], [Except.ok (strBytes "ok")]⟩

/-- Writer used only by the C7 witness. -/
def wC7 : OutWriter := ⟨[], false, none⟩

/-- Witness for C7: a 200 response with body "ok" is emitted as the CGI
headers write followed by the single body chunk, and the writer ends
flushed. -/
theorem C7_emitter_order_and_flush_witness :
    write_http_response wC7 respC7 =
      .ok ⟨wC7.written ++ serializeCgiHeaders respC7 :: [strBytes "ok"], wC7.flushed, none⟩ ∧
    handle_fcgi_request_with_axum_app (fun _ _ => respC7) reqC7 wC7 =
      .ok (ExitStatus.SUCCESS,
        ⟨wC7.written ++ serializeCgiHeaders respC7 :: [strBytes "ok"], true, none⟩) :=
  C7_emitter_order_and_flush reqC7 wC7 respC7 [strBytes "ok"]
    ⟨HttpVersion.h11, strBytes "GET", strBytes "/", []⟩ rfl rfl (by decide) rfl rfl

/-- The body write loop turns the first production error of the response
body stream into the io error the code builds with io::Error::other,
regardless of how many chunks preceded it, when the transport never fails. -/
theorem writeBodyStream_production_error (pre : List Bytes) (m : String)
    (rest : List (Except String Bytes)) (w : OutWriter) (hf : w.failAt = none) :
    writeBodyStream w (pre.map Except.ok ++ Except.error m :: rest) =
      .error (.bodyStream m) := by
  induction pre generalizing w with
  | nil => simp [writeBodyStream]
  | cons c cs ih =>
    simp only [List.map, List.cons_append, writeBodyStream, writeAll, hf]
    exact ih ⟨w.written ++ [c], w.flushed, none⟩ rfl

/-- C4 (amended): any emission failure propagates out of the handler as an
io error (transport level), and the handler reports a per-request outcome
only when emission fully succeeds, so a transport failure never masquerades
as a per-request outcome; a production error of the app response body
stream is logged, terminates the write loop, and — unlike what the original
claim states — is wrapped into an io error (io::Error::other) that also
propagates as a transport-level failure. -/
theorem C4_emission_error_propagation (app : App) (req : FcgiReq) (w : OutWriter)
    (parts : HttpRequestParts)
    (hrole : req.role = Role.responder) (hwok : req.writeableOk = true)
    (hreq : http_request_from_fcgi_request req.env = .ok parts) :
    (∀ e, write_http_response w (app parts req.bodyChunks) = .error e →
      handle_fcgi_request_with_axum_app app req w = .error e) ∧
    (∀ w1, write_http_response w (app parts req.bodyChunks) = .ok w1 →
      handle_fcgi_request_with_axum_app app req w = .ok (ExitStatus.SUCCESS, flushW w1)) ∧
    (∀ (pre : List Bytes) (m : String) (rest : List (Except String Bytes)),
      w.failAt = none →
      (app parts req.bodyChunks).body = pre.map Except.ok ++ Except.error m :: rest →
      handle_fcgi_request_with_axum_app app req w = .error (.bodyStream m)) := by
  have hred : ∀ r : Except IoErr OutWriter,
      write_http_response w (app parts req.bodyChunks) = r →
      handle_fcgi_request_with_axum_app app req w =
        (match r with
          | .error e => .error e
          | .ok w1 => .ok (ExitStatus.SUCCESS, flushW w1)) := by
    intro r hr
    unfold handle_fcgi_request_with_axum_app
    rw [if_neg (by simp [hrole]), if_neg (by simp [hwok]), hreq]
    simp only
    rw [hr]
  refine ⟨fun e he => hred _ he, fun w1 hw1 => hred _ hw1, ?_⟩
  intro pre m rest hf hbody
  have hemit : write_http_response w (app parts req.bodyChunks) = .error (.bodyStream m) := by
    unfold write_http_response
    simp only [writeAll, hf]
    rw [hbody]
    exact writeBodyStream_production_error pre m rest _ rfl
  exact hred _ hemit

/-- App whose response body stream fails, used only by the C4 counterexample. -/
def appC4bad : App := fun _ _ => ⟨200, [], [Except.error "boom"]⟩

/-- Responder request used only by the C4 counterexample. -/
def reqC4bad : FcgiReq := ⟨Role.responder, [], [], true⟩

/-- Perfect transport writer used only by the C4 counterexample. -/
def wC4bad : OutWriter := ⟨[], false, none⟩

/-- Counterexample to C4 as stated: with a transport that never fails, an
error produced by the app response body stream does NOT stay a per-request
condition — the handler returns an io error (transport level), terminating
the owning Connection Server, instead of any Ok per-request ExitStatus. -/
theorem C4_counterexample :
    handle_fcgi_request_with_axum_app appC4bad reqC4bad wC4bad =
      .error (.bodyStream "boom") := by
  rfl

/-- App used only by the C4 witness. -/
def appC4w : App := fun _ _ => ⟨200, [], []⟩

/-- Responder request used only by the C4 witness. -/
def reqC4w : FcgiReq := ⟨Role.responder, [], [], true⟩

/-- Writer whose first write fails, used only by the C4 witness. -/
def wC4w : OutWriter := ⟨[], false, some 0⟩

/-- Witness for the amended C4: a failed header write surfaces from the
handler as the io error itself. -/
theorem C4_emission_error_propagation_witness :
    handle_fcgi_request_with_axum_app appC4w reqC4w wC4w = .error .writeFailed :=
  (C4_emission_error_propagation appC4w reqC4w wC4w
    ⟨HttpVersion.h11, strBytes "GET", strBytes "/", []⟩ rfl rfl (by decide)).1
    .writeFailed (by decide)

/-- State of the BodyChannel bridge: chunks of the request input stream not
yet read by the ingestion loop, chunks sitting in the unbounded mpsc queue,
whether the producer has been dropped, and chunks already received by the
body stream of the HttpRequest. -/
structure ChanState where
  pending : List Bytes
  queue : List Bytes
  closed : Bool
  received : List Bytes
deriving Repr, DecidableEq

/-- Which side of the BodyChannel makes progress at a scheduling point. -/
inductive ChanActor
  | producer
  | consumer
deriving Repr, DecidableEq

/-- One scheduling step: the producer (the body_tx ingestion loop) sends
the next input chunk into the queue, or drops the transmitter when the
input stream is exhausted; the consumer (the body stream the app reads)
pops the front of the queue when it is nonempty. -/
def chanStep (s : ChanState) : ChanActor → ChanState
  | .producer =>
    match s.pending with
    | [] => { s with closed := true }
    | c :: rest => { s with pending := rest, queue := s.queue ++ [c] }
  | .consumer =>
    match s.queue with
    | [] => s
    | c :: rest => { s with queue := rest, received := s.received ++ [c] }

/-- Run of the BodyChannel bridge under an arbitrary interleaving. -/
def chanRun (s : ChanState) (sched : List ChanActor) : ChanState :=
  sched.foldl chanStep s

/-- Initial state: the whole request body is still pending. -/
def chanInit (chunks : List Bytes) : ChanState := ⟨chunks, [], false, []⟩

/-- Conservation invariant of the BodyChannel: every scheduling step keeps
received ++ queue ++ pending equal, chunk for chunk — nothing is dropped,
duplicated, or reordered in flight. -/
theorem chanRun_conserves (sched : List ChanActor) (s : ChanState) :
    (chanRun s sched).received ++ (chanRun s sched).queue ++ (chanRun s sched).pending =
      s.received ++ s.queue ++ s.pending := by
  induction sched generalizing s with
  | nil => rfl
  | cons a rest ih =>
    rw [chanRun, List.foldl]
    have hstep : (chanStep s a).received ++ (chanStep s a).queue ++ (chanStep s a).pending =
        s.received ++ s.queue ++ s.pending := by
      cases a with
      | producer =>
        cases hp : s.pending with
        | nil => simp [chanStep, hp]
        | cons c rest2 => simp [chanStep, hp]
      | consumer =>
        cases hq : s.queue with
        | nil => simp [chanStep, hq]
        | cons c rest2 => simp [chanStep, hq]
    rw [← hstep]
    exact ih (chanStep s a)

/-- The strict producer/consumer alternation schedule: one producer step
then one consumer step per chunk, then the final producer step that drops
the transmitter. -/
def lockstepSched : Nat → List ChanActor
  | 0 => [.producer]
  | n + 1 => .producer :: .consumer :: lockstepSched n

/-- Largest queue occupancy ever reached along a schedule. -/
def chanMaxQueue (s : ChanState) : List ChanActor → Nat
  | [] => s.queue.length
  | a :: rest => max s.queue.length (chanMaxQueue (chanStep s a) rest)

/-- Under lockstep scheduling the bridge finishes with every chunk
delivered in order and the producer dropped, and the queue never holds
more than one chunk at a time. -/
theorem chanRun_lockstep (chunks : List Bytes) :
    ∀ (b : Bool) (r : List Bytes),
      chanRun ⟨chunks, [], b, r⟩ (lockstepSched chunks.length) =
        ⟨[], [], true, r ++ chunks⟩ ∧
      chanMaxQueue ⟨chunks, [], b, r⟩ (lockstepSched chunks.length) ≤ 1 := by
  induction chunks with
  | nil =>
    intro b r
    refine ⟨?_, ?_⟩
    · simp [lockstepSched, chanRun, chanStep]
    · simp [lockstepSched, chanMaxQueue, chanStep]
  | cons c rest ih =>
    intro b r
    have h1 : chanStep ⟨c :: rest, [], b, r⟩ .producer = ⟨rest, [c], b, r⟩ := by
      simp [chanStep]
    have h2 : chanStep ⟨rest, [c], b, r⟩ .consumer = ⟨rest, [], b, r ++ [c]⟩ := by
      simp [chanStep]
    refine ⟨?_, ?_⟩
    · show chanRun _ (.producer :: .consumer :: lockstepSched rest.length) = _
      rw [chanRun, List.foldl, h1, List.foldl, h2]
      have := (ih b (r ++ [c])).1
      rw [chanRun] at this
      rw [this]
      simp
    · show chanMaxQueue _ (.producer :: .consumer :: lockstepSched rest.length) ≤ 1
      rw [chanMaxQueue, h1, chanMaxQueue, h2]
      have := (ih b (r ++ [c])).2
      simp only [List.length_cons, List.length_nil]
      omega

/-- C2: under every interleaving of the ingestion loop and the body
consumer that drains the input (pending empty) and the queue, the bytes
received through the BodyChannel are exactly the input chunks, in order,
with no duplication and no truncation — including schedules where the
consumer runs before ingestion completes; and under lockstep scheduling
delivery completes with the queue never holding more than one chunk, so
correctness never requires buffering the whole body. -/
theorem C2_body_channel_preserves_stream (chunks : List Bytes) (sched : List ChanActor)
    (hpend : (chanRun (chanInit chunks) sched).pending = [])
    (hq : (chanRun (chanInit chunks) sched).queue = []) :
    (chanRun (chanInit chunks) sched).received = chunks ∧
    chanRun (chanInit chunks) (lockstepSched chunks.length) = ⟨[], [], true, chunks⟩ ∧
    chanMaxQueue (chanInit chunks) (lockstepSched chunks.length) ≤ 1 := by
  refine ⟨?_, ?_, ?_⟩
  · have hc := chanRun_conserves sched (chanInit chunks)
    rw [hpend, hq] at hc
    simpa [chanInit] using hc
  · simpa using (chanRun_lockstep chunks false []).1
  · simpa using (chanRun_lockstep chunks false []).2

/-- Input chunks used only by the C2 witness. -/
def chunksC2 : List Bytes := [[1], [2]]

/-- A schedule where the consumer starts before ingestion completes, used
only by the C2 witness. -/
def schedC2 : List ChanActor :=
  [.consumer, .producer, .consumer, .producer, .consumer, .producer]

/-- Witness for C2 on a two-chunk body under an early-consumer schedule. -/
theorem C2_body_channel_preserves_stream_witness :
    (chanRun (chanInit chunksC2) schedC2).received = chunksC2 ∧
    chanRun (chanInit chunksC2) (lockstepSched chunksC2.length) = ⟨[], [], true, chunksC2⟩ ∧
    chanMaxQueue (chanInit chunksC2) (lockstepSched chunksC2.length) ≤ 1 :=
  C2_body_channel_preserves_stream chunksC2 schedC2 (by decide) (by decide)

/-- The send loop of the body_tx future: sends chunks one at a time while
the receiver is alive (the first aliveFor sends succeed); the first failed
send is logged and breaks the loop. Returns the chunks actually queued and
whether a send failure was logged. Being a total function, the loop always
terminates, never blocking indefinitely. -/
def sendLoop : Nat → List Bytes → List Bytes × Bool
  | _, [] => ([], false)
  | 0, _ :: _ => ([], true)
  | aliveFor + 1, c :: rest =>
    let r := sendLoop aliveFor rest
    (c :: r.1, r.2)

/-- Outcome of the body ingestion future: chunks sent, how many times the
transmitter was dropped, and whether a send failure was logged. -/
structure IngestOutcome where
  sent : List Bytes
  producerDrops : Nat
  sendFailureLogged : Bool
deriving Repr, DecidableEq

/-- Embedding of the body_tx_fut block of handle_fcgi_request_with_axum_app
(src/lib.rs lines 219-243): stream the request body chunks into the
BodyChannel transmitter; on the first send failure log an error and break;
afterwards drop the transmitter exactly once (the explicit drop(body_tx)).
aliveFor is the number of sends the consumer stays alive for: dropping the
receiver early makes later sends fail. The future returns unit — it never
produces an error. -/
def body_tx_fut (chunks : List Bytes) (aliveFor : Nat) : IngestOutcome :=
  let r := sendLoop aliveFor chunks
  ⟨r.1, 1, r.2⟩

/-- C8: when the consumer of the BodyChannel is dropped before ingestion
completes (the receiver stays alive for fewer sends than there are
chunks), the ingestion loop terminates without error: exactly the chunks
sent before the failure got through, the first failed send is logged and
exits the loop, and the transmitter is dropped exactly once so the
consumer side observes end-of-stream; the transmitter is dropped exactly
once on every run, early-dropped consumer or not. -/
theorem C8_consumer_dropped_early (chunks : List Bytes) (aliveFor : Nat)
    (h : aliveFor < chunks.length) :
    body_tx_fut chunks aliveFor = ⟨chunks.take aliveFor, 1, true⟩ ∧
    (∀ k, (body_tx_fut chunks k).producerDrops = 1) := by
  refine ⟨?_, fun k => rfl⟩
  have hloop : ∀ (cs : List Bytes) (a : Nat), a < cs.length →
      sendLoop a cs = (cs.take a, true) := by
    intro cs
    induction cs with
    | nil => intro a ha; cases ha
    | cons c rest ih =>
      intro a ha
      cases a with
      | zero => rfl
      | succ a2 =>
        show (c :: (sendLoop a2 rest).1, (sendLoop a2 rest).2) = _
        rw [ih a2 (by simpa using ha)]
        rfl
  show (⟨(sendLoop aliveFor chunks).1, 1, (sendLoop aliveFor chunks).2⟩ : IngestOutcome) = _
  rw [hloop chunks aliveFor h]

/-- Witness for C8: three chunks with the consumer alive for one send. -/
theorem C8_consumer_dropped_early_witness :
    body_tx_fut [[1], [2], [3]] 1 = ⟨[[1]], 1, true⟩ ∧
    (∀ k, (body_tx_fut [[1], [2], [3]] k).producerDrops = 1) :=
  C8_consumer_dropped_early [[1], [2], [3]] 1 (by decide)

/-- Apostrophe character, to spell the diagnostic text. -/
def apos : String := (Char.ofNat 39).toString

/-- The fixed diagnostic printed when file descriptor 0 is not a socket
(src/lib.rs lines 43-46), byte for byte. -/
def FD_0_IS_TOO_NORMAL : String :=
  "Fatal error: wasn" ++ apos ++ "t executed by a compatible FastCGI client!\n" ++
  "This server mode expects to be passed an open Unix socket on file descriptor 0,\n" ++
  "rather than the normal stdin stream. The main modern client that supports\n" ++
  "this is Apache" ++ apos ++ "s mod_fcgid."

/-- File types an inherited descriptor can have (std::fs::FileType). -/
inductive FdFileType
  | socket
  | regularFile
  | directory
  | fifo
  | charDevice
  | blockDevice
  | symlink
deriving Repr, DecidableEq

/-- Startup error of serve_fcgid_with_graceful_shutdown: the distinct
Fd0IsTooNormal error (io::Error::other), displayed as the fixed diagnostic. -/
inductive ServeInitError
  | fd0IsTooNormal (diagnostic : String)
deriving Repr, DecidableEq

/-- The async Unix-domain listener produced on success: the adopted handle
after set_nonblocking(true) and the tokio wrap. -/
structure UnixListenerModel where
  nonblocking : Bool
deriving Repr, DecidableEq

/-- Observable actions the startup sequence can perform on or around the
inherited handle, in order. -/
inductive IoAction
  | fdMetadataCheck
  | stderrPrint (s : String)
  | setNonblocking
  | acceptAttempt
  | readFd
  | writeFd
deriving Repr, DecidableEq

/-- Actions that touch the handle as a stream or listener: accepting a
connection, or reading or writing bytes. -/
def IoAction.touchesStream : IoAction → Bool
  | .acceptAttempt => true
  | .readFd => true
  | .writeFd => true
  | _ => false

/-- Embedding of the startup guard of serve_fcgid_with_graceful_shutdown
(src/lib.rs lines 80-102): check the metadata of file descriptor 0 first;
when the file type is not a socket, print the fixed diagnostic on stderr
and return the distinct error before anything else happens; when it is a
socket, adopt the handle, set it non-blocking, and wrap it as the tokio
listener. Returns the result together with the trace of actions
performed, in order. -/
def serve_fcgid_startup (fd0Type : FdFileType) :
    Except ServeInitError UnixListenerModel × List IoAction :=
  if fd0Type = FdFileType.socket then
    (.ok ⟨true⟩, [.fdMetadataCheck, .setNonblocking])
  else
    (.error (.fd0IsTooNormal FD_0_IS_TOO_NORMAL),
     [.fdMetadataCheck, .stderrPrint FD_0_IS_TOO_NORMAL])

/-- C3: a non-socket handle in the fd 0 slot makes serve fail with the
distinct Fd0IsTooNormal error carrying the fixed diagnostic, after printing
that same diagnostic, and the action trace contains no accept attempt and
no read or write on the handle; a socket handle instead yields the ready
non-blocking async Unix-domain listener. -/
theorem C3_fd0_guard (ft : FdFileType) (h : ft ≠ FdFileType.socket) :
    (serve_fcgid_startup ft).1 = .error (.fd0IsTooNormal FD_0_IS_TOO_NORMAL) ∧
    (serve_fcgid_startup ft).2.contains (.stderrPrint FD_0_IS_TOO_NORMAL) = true ∧
    (serve_fcgid_startup ft).2.all (fun a => ! a.touchesStream) = true ∧
    (serve_fcgid_startup FdFileType.socket).1 = .ok ⟨true⟩ := by
  unfold serve_fcgid_startup
  rw [if_neg h]
  refine ⟨rfl, ?_, ?_, rfl⟩
  · simp [List.contains]
  · simp [IoAction.touchesStream]

/-- Witness for C3 with a regular file in the fd 0 slot. -/
theorem C3_fd0_guard_witness :
    (serve_fcgid_startup FdFileType.regularFile).1 =
      .error (.fd0IsTooNormal FD_0_IS_TOO_NORMAL) ∧
    (serve_fcgid_startup FdFileType.regularFile).2.contains
      (.stderrPrint FD_0_IS_TOO_NORMAL) = true ∧
    (serve_fcgid_startup FdFileType.regularFile).2.all (fun a => ! a.touchesStream) = true ∧
    (serve_fcgid_startup FdFileType.socket).1 = .ok ⟨true⟩ :=
  C3_fd0_guard FdFileType.regularFile (by decide)

/-- One scheduling point of the select race in
serve_fcgid_with_graceful_shutdown: whether the cancellation signal is
ready, whether the acceptor could accept a connection, and whether some
in-flight connection finishes at this point. -/
structure PollPoint where
  signalReady : Bool
  acceptReady : Bool
  connFinished : Bool
deriving Repr, DecidableEq

/-- Phase of the serve call: racing the signal against the accept loop,
draining inside runner.shutdown(), or returned Ok(()). -/
inductive ServePhase
  | accepting
  | draining
  | finished
deriving Repr, DecidableEq

/-- State of the serve call: its phase, how many connections it has
accepted in total, and how many are still in flight. -/
structure ServeSt where
  phase : ServePhase
  accepted : Nat
  inFlight : Nat
deriving Repr, DecidableEq

/-- One step of the shutdown coordinator (src/lib.rs lines 109-117) with
the runner modelled at its drain interface. In the accepting phase the
biased select polls the cancellation branch first: a ready signal ends the
accept loop before any acceptor progress at the same point, moving to the
drain phase (or straight to finished when nothing is in flight); otherwise
the serve_loop branch may retire a finished connection and accept a ready
one. In the draining phase runner.shutdown() only waits for in-flight
connections to finish — it never accepts and never aborts work. -/
def serveStep (s : ServeSt) (p : PollPoint) : ServeSt :=
  match s.phase with
  | .accepting =>
    if p.signalReady = true then
      if s.inFlight = 0 then ⟨.finished, s.accepted, s.inFlight⟩
      else ⟨.draining, s.accepted, s.inFlight⟩
    else
      let n := if p.connFinished = true then s.inFlight - 1 else s.inFlight
      if p.acceptReady = true then ⟨.accepting, s.accepted + 1, n + 1⟩
      else ⟨.accepting, s.accepted, n⟩
  | .draining =>
    let n := if p.connFinished = true then s.inFlight - 1 else s.inFlight
    if n = 0 then ⟨.finished, s.accepted, 0⟩ else ⟨.draining, s.accepted, n⟩
  | .finished => s

/-- Run of the serve call over a sequence of scheduling points. -/
def serveRun (s : ServeSt) (es : List PollPoint) : ServeSt :=
  es.foldl serveStep s

/-- Initial serve state: accepting, nothing accepted, nothing in flight. -/
def serveInit : ServeSt := ⟨ServePhase.accepting, 0, 0⟩

/-- A step at which the signal is ready, or whose state has already left
the accepting phase, never accepts and never returns to accepting. -/
theorem serveStep_freeze (s : ServeSt) (p : PollPoint)
    (h : s.phase ≠ ServePhase.accepting ∨ p.signalReady = true) :
    (serveStep s p).accepted = s.accepted ∧
    (serveStep s p).phase ≠ ServePhase.accepting := by
  obtain ⟨ph, acc, infl⟩ := s
  cases ph with
  | accepting =>
    have hp : p.signalReady = true := by
      cases h with
      | inl h2 => exact absurd rfl h2
      | inr h2 => exact h2
    simp only [serveStep, hp, if_true]
    split <;> simp
  | draining =>
    simp only [serveStep]
    split <;> split <;> simp
  | finished => simp [serveStep]

/-- Once the accepting phase has been left, no later scheduling point
accepts a connection or re-enters the accepting phase. -/
theorem serveRun_freeze :
    ∀ (es : List PollPoint) (s : ServeSt), s.phase ≠ ServePhase.accepting →
      (serveRun s es).accepted = s.accepted ∧
      (serveRun s es).phase ≠ ServePhase.accepting
  | [], s, h => ⟨rfl, h⟩
  | e :: rest, s, h => by
    obtain ⟨h1, h2⟩ := serveStep_freeze s e (.inl h)
    obtain ⟨h3, h4⟩ := serveRun_freeze rest (serveStep s e) h2
    rw [serveRun] at h3
    exact ⟨by rw [serveRun, List.foldl, h3, h1], h4⟩

/-- The serve call reaches the finished phase only with zero connections
in flight. -/
theorem serveStep_finished_drained (s : ServeSt) (p : PollPoint)
    (h : s.phase = ServePhase.finished → s.inFlight = 0) :
    (serveStep s p).phase = ServePhase.finished → (serveStep s p).inFlight = 0 := by
  obtain ⟨ph, acc, infl⟩ := s
  cases ph with
  | accepting =>
    simp only [serveStep]
    by_cases hs : p.signalReady = true
    · rw [if_pos hs]
      by_cases hi : infl = 0
      · rw [if_pos hi]
        intro _
        exact hi
      · rw [if_neg hi]
        intro h2
        simp at h2
    · rw [if_neg hs]
      by_cases ha : p.acceptReady = true
      · rw [if_pos ha]
        intro h2
        simp at h2
      · rw [if_neg ha]
        intro h2
        simp at h2
  | draining =>
    simp only [serveStep]
    split <;> split <;> simp
  | finished =>
    intro h2
    exact h h2

/-- Along any run, the serve call is finished only once nothing is in
flight: runner.shutdown() drains in-flight connections before Ok returns. -/
theorem serveRun_finished_drained :
    ∀ (es : List PollPoint) (s : ServeSt),
      (s.phase = ServePhase.finished → s.inFlight = 0) →
      (serveRun s es).phase = ServePhase.finished → (serveRun s es).inFlight = 0
  | [], _, h => h
  | e :: rest, s, h =>
    serveRun_finished_drained rest (serveStep s e) (serveStep_finished_drained s e h)

/-- In-flight work only ever decreases when a connection finishes of its
own accord: no scheduling point aborts it. -/
theorem serveStep_no_abort (s : ServeSt) (p : PollPoint)
    (h : (serveStep s p).inFlight < s.inFlight) : p.connFinished = true := by
  by_cases hc : p.connFinished = true
  · exact hc
  · exfalso
    have hc2 : p.connFinished = false := by
      revert hc
      cases p.connFinished <;> simp
    obtain ⟨ph, acc, infl⟩ := s
    cases ph with
    | accepting =>
      simp only [serveStep, hc2, Bool.false_eq_true, if_false] at h
      by_cases hs : p.signalReady = true
      · rw [if_pos hs] at h
        split at h <;> dsimp only at h <;> omega
      · rw [if_neg hs] at h
        split at h <;> dsimp only at h <;> omega
    | draining =>
      simp only [serveStep, hc2, Bool.false_eq_true, if_false] at h
      split at h <;> dsimp only at h <;> omega
    | finished =>
      simp only [serveStep] at h
      omega

/-- C9: when the cancellation signal completes at some scheduling point,
the serve call accepts no further connections from that point on — the
biased race takes the signal branch even when the acceptor could also make
progress — and it can only reach the finished (returned Ok) phase once the
drain has let every in-flight connection complete; in-flight work only
ever decreases by a connection finishing, never by abortion. -/
theorem C9_graceful_shutdown (pre post : List PollPoint) (p : PollPoint)
    (hp : p.signalReady = true) :
    (serveRun serveInit (pre ++ p :: post)).accepted =
      (serveRun serveInit pre).accepted ∧
    (serveRun serveInit (pre ++ p :: post)).phase ≠ ServePhase.accepting ∧
    (∀ es, (serveRun serveInit es).phase = ServePhase.finished →
      (serveRun serveInit es).inFlight = 0) ∧
    (∀ (s : ServeSt) (q : PollPoint),
      (serveStep s q).inFlight < s.inFlight → q.connFinished = true) := by
  have hsplit : serveRun serveInit (pre ++ p :: post) =
      serveRun (serveStep (serveRun serveInit pre) p) post := by
    rw [serveRun, serveRun, serveRun, List.foldl_append, List.foldl]
  obtain ⟨hstep1, hstep2⟩ := serveStep_freeze (serveRun serveInit pre) p (.inr hp)
  obtain ⟨hrun1, hrun2⟩ := serveRun_freeze post _ hstep2
  refine ⟨?_, ?_, ?_, serveStep_no_abort⟩
  · rw [hsplit, hrun1, hstep1]
  · rw [hsplit]
    exact hrun2
  · intro es
    exact serveRun_finished_drained es serveInit (by intro h2; cases h2)

/-- Scheduling prefix used only by the C9 witness: one accepted connection. -/
def preC9 : List PollPoint := [⟨false, true, false⟩]

/-- Signal point used only by the C9 witness: the signal fires while the
acceptor also has a connection ready. -/
def pC9 : PollPoint := ⟨true, true, false⟩

/-- Scheduling suffix used only by the C9 witness: the in-flight
connection finishes during the drain. -/
def postC9 : List PollPoint := [⟨false, true, true⟩]

/-- Witness for C9: after the signal the accepted count stays at one even
though accepts were ready, and the run has left the accepting phase. -/
theorem C9_graceful_shutdown_witness :
    (serveRun serveInit (preC9 ++ pC9 :: postC9)).accepted =
      (serveRun serveInit preC9).accepted ∧
    (serveRun serveInit (preC9 ++ pC9 :: postC9)).phase ≠ ServePhase.accepting :=
  ⟨(C9_graceful_shutdown preC9 postC9 pC9 rfl).1,
   (C9_graceful_shutdown preC9 postC9 pC9 rfl).2.1⟩
